import Mathlib

/-!
Verification development for the streaming message bridge in
`src/claude-bridge/channel-manager.js`.

The JavaScript source is shallowly embedded: every definition below mirrors a
function of the source file (line references are given in the doc comments).
JavaScript strings are Lean `String`s, but all string operations are defined by
structural recursion over the underlying character lists so that concrete
statements can be settled by `decide` or `rfl`.  JavaScript `null`/`undefined`
values are `Option.none`; JavaScript truthiness of strings (empty string is
falsy) is modelled by `jsStr`.  Effects that the source performs on the outside
world (stdout protocol lines, the transcript file tree, the pending-promise
race) are made explicit: functions return traces of emitted protocol lines,
threaded store states, and take the winner of the timeout race as an input.
Debug-only logging (`[DEBUG]`, `console.error`) is not part of the model, since
no specified behaviour depends on it.
-/

namespace ChannelManager

/-- JavaScript truthiness filter for an optional string: `null`/`undefined`
and the empty string are falsy and yield `none`; any other string is returned
unchanged. -/
def jsStr : Option String → Option String
  | none => none
  | some s => if s.data.isEmpty then none else some s

/-- Lowercasing as used by `String.prototype.toLowerCase` (per character). -/
def jsLower (s : String) : String := ⟨s.data.map Char.toLower⟩

/-- Substring containment, the model of `String.prototype.includes`. -/
def jsContains (s pat : String) : Bool := decide (pat.data <:+: s.data)

/-- Prefix test, the model of `String.prototype.startsWith`. -/
def jsStartsWith (s p : String) : Bool := p.data.isPrefixOf s.data

/-- Whitespace trimming, the model of `String.prototype.trim`. -/
def jsTrim (s : String) : String :=
  ⟨((s.data.dropWhile Char.isWhitespace).reverse.dropWhile Char.isWhitespace).reverse⟩

/-- Splitting a file into lines, the model of `content.split("\n")`. -/
def jsSplitLines (s : String) : List String :=
  (s.data.splitOn '\n').map (fun l => ⟨l⟩)

/-!
AsyncStream (channel-manager.js lines 32-83): the single-use async channel
used to feed the multi-part user message into the native streaming call.  The
`readResolve` continuation is modelled by the boolean `hasReader` (a reader is
currently suspended); delivering a value to that reader is made explicit in
the return value of `enqueue`.
-/

/-- State of the `AsyncStream` class: its pending `queue`, whether a suspended
reader is waiting (`readResolve` was set), whether `done()`/`return()` was
called, and whether iteration has started. -/
structure AsyncStream (α : Type) where
  queue : List α
  hasReader : Bool
  isDone : Bool
  started : Bool
  deriving DecidableEq

/-- Fresh channel as built by the constructor (lines 33-38). -/
def AsyncStream.init {α : Type} : AsyncStream α :=
  { queue := [], hasReader := false, isDone := false, started := false }

/-- Model of the `Symbol.asyncIterator` method (lines 40-46): a second request
for the iterator throws, otherwise the channel is marked started and returned. -/
def AsyncStream.asyncIterator {α : Type} (s : AsyncStream α) :
    Except String (AsyncStream α) :=
  if s.started then Except.error "Stream can only be iterated once"
  else Except.ok { s with started := true }

/-- Result of one `next()` call (lines 48-58). -/
inductive NextResult (α : Type)
  | value (a : α)
  | endOfStream
  | suspended
  deriving DecidableEq

/-- Model of `next()` (lines 48-58): a queued value resolves immediately, a
finished empty channel signals end of stream, otherwise the caller suspends. -/
def AsyncStream.next {α : Type} (s : AsyncStream α) : NextResult α × AsyncStream α :=
  match s.queue with
  | a :: rest => (NextResult.value a, { s with queue := rest })
  | [] =>
    if s.isDone then (NextResult.endOfStream, s)
    else (NextResult.suspended, { s with hasReader := true })

/-- Model of `enqueue(value)` (lines 60-68): a suspended reader receives the
value directly (first component), otherwise it is queued. -/
def AsyncStream.enqueue {α : Type} (s : AsyncStream α) (a : α) :
    Option α × AsyncStream α :=
  if s.hasReader then (some a, { s with hasReader := false })
  else (none, { s with queue := s.queue ++ [a] })

/-- Model of `done()` (lines 70-77): marks the channel finished and releases a
suspended reader with the end-of-stream signal. -/
def AsyncStream.done {α : Type} (s : AsyncStream α) : AsyncStream α :=
  { s with isDone := true, hasReader := false }

/-!
Credential and endpoint resolution (channel-manager.js lines 86-136 and
292-300).
-/

/-- The `env` block of `~/.claude/settings.json` as read by
`loadClaudeSettings`; only the three fields consulted by `setupApiKey`. -/
structure SettingsEnv where
  anthropicApiKey : Option String
  anthropicAuthToken : Option String
  anthropicBaseUrl : Option String
  deriving DecidableEq

/-- The process-environment variables consulted by `setupApiKey`. -/
structure ProcessEnv where
  anthropicApiKey : Option String
  anthropicBaseUrl : Option String
  deriving DecidableEq

/-- Result of `setupApiKey` (lines 97-136). -/
structure ApiConfig where
  apiKey : String
  baseUrl : Option String
  apiKeySource : String
  baseUrlSource : String
  deriving DecidableEq

/-- Model of `setupApiKey` (lines 97-136): the settings file takes precedence
over process-environment variables; a missing key throws the configuration
error before any network attempt.  `settings = none` models a missing or
unparsable settings file. -/
def setupApiKey (settings : Option SettingsEnv) (penv : ProcessEnv) :
    Except String ApiConfig :=
  let key : Option (String × String) :=
    match settings.bind (fun s => jsStr s.anthropicApiKey) with
    | some k => some (k, "settings.json")
    | none =>
      match settings.bind (fun s => jsStr s.anthropicAuthToken) with
      | some k => some (k, "settings.json")
      | none =>
        match jsStr penv.anthropicApiKey with
        | some k => some (k, "environment")
        | none => none
  let base : Option String × String :=
    match settings.bind (fun s => jsStr s.anthropicBaseUrl) with
    | some b => (some b, "settings.json")
    | none =>
      match jsStr penv.anthropicBaseUrl with
      | some b => (some b, "environment")
      | none => (none, "default")
  match key with
  | none => Except.error "API Key not configured"
  | some (k, src) =>
    Except.ok { apiKey := k, baseUrl := base.1, apiKeySource := src, baseUrlSource := base.2 }

/-- The list of official URL spellings from `isCustomBaseUrl` (lines 294-298).
Note that the source never inspects the elements of this list. -/
def officialUrls : List String :=
  ["https://api.anthropic.com", "https://api.anthropic.com/", "api.anthropic.com"]

/-- Model of `isCustomBaseUrl` (lines 292-300): a falsy base URL is not custom;
otherwise the URL is custom when its lowercased value does not contain the
canonical host.  In the source the `some` predicate ignores its argument and
tests the containment once per element of `officialUrls`, which collapses to a
single containment test. -/
def isCustomBaseUrl (baseUrl : Option String) : Bool :=
  match jsStr baseUrl with
  | none => false
  | some u => ! officialUrls.any (fun _ => jsContains (jsLower u) "api.anthropic.com")

/-- Model of `mapModelIdToSdkName` (lines 267-285): a falsy or missing model id
defaults to "sonnet"; otherwise the lowercased id is matched for "opus" first,
then "haiku", else "sonnet". -/
def mapModelIdToSdkName (modelId : Option String) : String :=
  match jsStr modelId with
  | none => "sonnet"
  | some m =>
    let lowerModel := jsLower m
    if jsContains lowerModel "opus" then "opus"
    else if jsContains lowerModel "haiku" then "haiku"
    else "sonnet"

/-!
Working directory resolution (channel-manager.js lines 142-260).  The model
fixes the Unix branch of the source (`process.platform` different from
"win32"); the Windows-only prefixes and lowercasing are therefore absent.
The ambient process state consulted by the resolver is gathered in `SysEnv`.
-/

/-- Ambient process state consulted by the working-directory resolver:
the two project-path environment variables, the `TMPDIR` variable, the value
of `os.tmpdir()`, `process.cwd()`, `homedir()`, the `path.resolve` function
relative to the current directory, and the file-system test
`fs.statSync(p).isDirectory()` (false also when `statSync` throws). -/
structure SysEnv where
  ideaProjectPath : Option String
  projectPath : Option String
  tmpdirEnvVar : Option String
  osTmpdir : String
  cwd : String
  home : String
  resolvePath : String → String
  isExistingDirectory : String → Bool

/-- Model of `normalizePathForComparison` (lines 187-194, Unix branch):
backslashes become forward slashes; the Windows lowercasing is skipped. -/
def normalizePathForComparison (pathValue : String) : String :=
  ⟨pathValue.data.map (fun c => if c = '\\' then '/' else c)⟩

/-- Model of `getTempPathPrefixes` (lines 142-181, Unix branch): the system
temp dir if truthy, the three fixed Unix prefixes, the `TMPDIR` variable if
set, deduplicated keeping first occurrences (the `new Set` spread). -/
def getTempPathPrefixes (env : SysEnv) : List String :=
  let prefixes :=
    (if env.osTmpdir.data.isEmpty then [] else [normalizePathForComparison env.osTmpdir])
    ++ ["/tmp", "/var/tmp", "/private/tmp"]
    ++ (match jsStr env.tmpdirEnvVar with
        | some t => [normalizePathForComparison t]
        | none => [])
  prefixes.eraseDups

/-- Model of `isTempDirectory` (lines 207-218): the normalized path starts
with, or equals, some non-empty recognized temp prefix. -/
def isTempDirectory (env : SysEnv) (pathValue : String) : Bool :=
  if pathValue.data.isEmpty then false
  else
    let normalizedPath := normalizePathForComparison pathValue
    (getTempPathPrefixes env).any (fun tempPath =>
      if tempPath.data.isEmpty then false
      else jsStartsWith normalizedPath tempPath || normalizedPath == tempPath)

/-- Model of `sanitizePath` (lines 196-205): a blank candidate is rejected,
otherwise the trimmed candidate is resolved to an absolute path. -/
def sanitizePath (env : SysEnv) (candidate : String) : Option String :=
  if (jsTrim candidate).data.isEmpty then none
  else some (env.resolvePath (jsTrim candidate))

/-- The environment-provided project path
(`process.env.IDEA_PROJECT_PATH || process.env.PROJECT_PATH`, line 223). -/
def envProjectPath (env : SysEnv) : Option String :=
  match jsStr env.ideaProjectPath with
  | some v => some v
  | none => jsStr env.projectPath

/-- Candidate list built by `selectWorkingDirectory` (lines 221-233): the
requested directory when truthy and not a sentinel literal, then the
environment project path, then the current directory, then home. -/
def workingDirCandidates (env : SysEnv) (requestedCwd : Option String) : List String :=
  (match jsStr requestedCwd with
   | some r => if r ≠ "undefined" && r ≠ "null" then [r] else []
   | none => [])
  ++ (match envProjectPath env with
      | some p => [p]
      | none => [])
  ++ [env.cwd, env.home]

/-- The candidate scan of `selectWorkingDirectory` (lines 237-256): skip
unsanitizable candidates, skip temp-directory candidates while an environment
project path is known, accept the first candidate resolving to an existing
directory. -/
def selectWorkingDirectoryScan (env : SysEnv) : List String → Option String
  | [] => none
  | candidate :: rest =>
    match sanitizePath env candidate with
    | none => selectWorkingDirectoryScan env rest
    | some normalized =>
      if isTempDirectory env normalized && (envProjectPath env).isSome then
        selectWorkingDirectoryScan env rest
      else if env.isExistingDirectory normalized then some normalized
      else selectWorkingDirectoryScan env rest

/-- Model of `selectWorkingDirectory` (lines 220-260): the candidate scan,
with the unverified fallback `envProjectPath || homedir()` when every
candidate fails. -/
def selectWorkingDirectory (env : SysEnv) (requestedCwd : Option String) : String :=
  match selectWorkingDirectoryScan env (workingDirCandidates env requestedCwd) with
  | some dir => dir
  | none => (envProjectPath env).getD env.home

/-- Specification-side acceptance test for one candidate: the normalized path,
provided the candidate sanitizes, is not skipped by the temp rule, and is an
existing directory. -/
def acceptCandidate (env : SysEnv) (candidate : String) : Option String :=
  match sanitizePath env candidate with
  | none => none
  | some normalized =>
    if isTempDirectory env normalized && (envProjectPath env).isSome then none
    else if env.isExistingDirectory normalized then some normalized
    else none

/-!
The line-tagged output protocol and the streaming message bridge
(channel-manager.js lines 310-524 and 903-1134).  A run of the bridge is
modelled as the list of protocol lines it prints; the winner of the
60-second race between the runtime call and the timeout is an input of the
model (`RaceOutcome`).
-/

/-- Content blocks as they occur in messages: text, base64 image, opaque
tool-use payload, or any other passthrough block. -/
inductive ContentBlock
  | text (t : String)
  | image (mediaType : String) (data : String)
  | toolUse (payload : String)
  | other (payload : String)
  deriving DecidableEq

/-- The `message.content` field of a runtime event: an array of blocks, a bare
string, or some other value (relayed as no `[CONTENT]` lines). -/
inductive MsgContent
  | blocks (bs : List ContentBlock)
  | str (s : String)
  | otherContent
  deriving DecidableEq

/-- One structured event produced by the native streaming delivery path: its
`type` tag, its optional `message.content`, and its optional `session_id`. -/
structure StreamEvent where
  etype : String
  content : Option MsgContent
  sessionId : Option String
  deriving DecidableEq

/-- A record serialized on a `[MESSAGE]` line: either a raw relayed runtime
event (native path) or one of the records the fallback path synthesizes. -/
inductive EmittedRecord
  | streamed (ev : StreamEvent)
  | systemInit (cwd : String) (sessionId : String) (model : String) (permissionMode : String)
  | assistantShaped (stopReason : String) (content : List ContentBlock) (sessionId : String)
  | resultShaped (subtype : String) (isError : Bool) (result : String) (sessionId : String)
  deriving DecidableEq

/-- The final bare JSON line of an invocation. -/
inductive TerminalRecord
  | success (sessionId : Option String)
  | failure (error : String)
  deriving DecidableEq

/-- One protocol line on standard output (debug logging is not modelled). -/
inductive OutLine
  | messageStart
  | resuming (id : String)
  | message (r : EmittedRecord)
  | content (t : String)
  | sessionIdLine (id : String)
  | messageEnd
  | terminal (t : TerminalRecord)
  deriving DecidableEq

/-- Lines printed for one relayed event in the streaming loop (lines 479-507):
the raw `[MESSAGE]` line; for assistant events one `[CONTENT]` line per text
block (or one for a bare string content); for system events with a truthy
session id the `[SESSION_ID]` line. -/
def emitEventLines (ev : StreamEvent) : List OutLine :=
  [OutLine.message (EmittedRecord.streamed ev)]
  ++ (if ev.etype == "assistant" then
        match ev.content with
        | some (MsgContent.blocks bs) =>
          bs.filterMap (fun b =>
            match b with
            | ContentBlock.text t => some (OutLine.content t)
            | _ => none)
        | some (MsgContent.str s) => [OutLine.content s]
        | _ => []
      else [])
  ++ (if ev.etype == "system" then
        match jsStr ev.sessionId with
        | some sid => [OutLine.sessionIdLine sid]
        | none => []
      else [])

/-- The session id reported in the terminal success record (lines 475-515):
the caller-supplied resume id, overwritten by every system event carrying a
truthy session id. -/
def finalSessionId (resumeSessionId : Option String) (events : List StreamEvent) :
    Option String :=
  events.foldl (fun acc ev =>
    if ev.etype == "system" then
      match jsStr ev.sessionId with
      | some sid => some sid
      | none => acc
    else acc) resumeSessionId

/-- The fixed wall-clock budget of the `Promise.race` (lines 460-465 and
1069-1074), in milliseconds. -/
def queryTimeoutMs : Nat := 60000

/-- Winner of the race between the runtime call and the timeout: either the
call completed with a sequence of events, or the timeout fired first. -/
inductive RaceOutcome
  | completed (events : List StreamEvent)
  | timedOut
  deriving DecidableEq

/-- The two delivery paths of the spec: the native streaming `query()` call,
or the non-streaming Anthropic-SDK fallback `sendMessageWithAnthropicSDK`. -/
inductive DeliveryPath
  | nativeStreaming
  | anthropicSdkFallback
  deriving DecidableEq

/-- Observable outcome of a send operation: the delivery path actually
dispatched (none when the operation failed before dispatch) and the list of
protocol lines printed. -/
structure SendOutcome where
  dispatch : Option DeliveryPath
  trace : List OutLine

/-- Lines printed from the race onward, shared verbatim by `sendMessage`
(lines 452-523) and `sendMessageWithAttachments` (lines 1061-1132): on
timeout the rejection is caught and only the terminal failure line is
printed; on completion the streaming loop relays every event, then
`[MESSAGE_END]` and the terminal success record. -/
def streamLoopLines (resumeSessionId : Option String) (race : RaceOutcome) : List OutLine :=
  match race with
  | RaceOutcome.timedOut =>
    [OutLine.terminal (TerminalRecord.failure "Claude Code process aborted by user")]
  | RaceOutcome.completed events =>
    (events.map emitEventLines).flatten
    ++ [OutLine.messageEnd,
        OutLine.terminal (TerminalRecord.success (finalSessionId resumeSessionId events))]

/-- Model of `sendMessage` (lines 310-524), the plain-text send path.  After
credential resolution the function always dispatches the native streaming
`query()` call; a custom base URL is only logged (lines 323-326), it does not
change the delivery path.  A failed credential resolution is caught and
prints only the terminal failure line. -/
def sendMessage (settings : Option SettingsEnv) (penv : ProcessEnv) (env : SysEnv)
    (message : Option String) (resumeSessionId cwd permissionMode model : Option String)
    (race : RaceOutcome) : SendOutcome :=
  match setupApiKey settings penv with
  | Except.error e => { dispatch := none, trace := [OutLine.terminal (TerminalRecord.failure e)] }
  | Except.ok cfg =>
    let _customDetected := isCustomBaseUrl cfg.baseUrl
    let _workingDirectory := selectWorkingDirectory env cwd
    let _sdkModelName := mapModelIdToSdkName model
    let _prompt := message
    let _mode := permissionMode
    let resumeLines :=
      match jsStr resumeSessionId with
      | some sid => [OutLine.resuming sid]
      | none => []
    { dispatch := some DeliveryPath.nativeStreaming,
      trace := OutLine.messageStart :: (resumeLines ++ streamLoopLines resumeSessionId race) }

/-!
Attachment loading (channel-manager.js lines 731-820) and the attachments
send path (lines 903-1134).
-/

/-- One attachment record: optional display name, MIME string (none models a
missing or non-string value), base64 payload. -/
structure Attachment where
  fileName : Option String
  mediaType : Option String
  data : String
  deriving DecidableEq

/-- The JSON value delivered over the stdin side channel, as seen by
`loadAttachments`: a bare array, a wrapper object whose `attachments` field
may or may not be an array, or any other JSON value with its truthiness. -/
inductive StdinPayload
  | arr (xs : List Attachment)
  | wrapped (attachments : Option (List Attachment))
  | scalar (truthy : Bool)
  deriving DecidableEq

/-- Result of reading and parsing the legacy attachments file: the read or the
parse threw, or it parsed to an array, or it parsed to a non-array value. -/
inductive EnvFileRead
  | readError
  | parsedArray (xs : List Attachment)
  | parsedOther
  deriving DecidableEq

/-- Inputs of the legacy file fallback: the `CLAUDE_ATTACHMENTS_FILE`
environment variable and the outcome of reading the file it names. -/
structure AttachmentsEnv where
  claudeAttachmentsFile : Option String
  readAttachmentsFile : String → EnvFileRead

/-- Model of `loadAttachmentsFromEnv` (lines 731-743): no configured path, a
throwing read or parse, or a non-array parse all degrade to the empty list. -/
def loadAttachmentsFromEnv (env : AttachmentsEnv) : List Attachment :=
  match jsStr env.claudeAttachmentsFile with
  | none => []
  | some p =>
    match env.readAttachmentsFile p with
    | EnvFileRead.readError => []
    | EnvFileRead.parsedArray xs => xs
    | EnvFileRead.parsedOther => []

/-- Model of `loadAttachments` (lines 802-820): a truthy stdin payload that is
a bare array, or whose `attachments` field is an array, is returned directly
(also when that array is empty); every other payload falls back to the legacy
file. -/
def loadAttachments (stdinData : Option StdinPayload) (env : AttachmentsEnv) :
    List Attachment :=
  match stdinData with
  | some (StdinPayload.arr xs) => xs
  | some (StdinPayload.wrapped (some xs)) => xs
  | some (StdinPayload.wrapped none) => loadAttachmentsFromEnv env
  | some (StdinPayload.scalar _) => loadAttachmentsFromEnv env
  | none => loadAttachmentsFromEnv env

/-- Content block built for one attachment (lines 941-959): image media types
become base64 image blocks, everything else becomes a descriptive text
placeholder naming the file. -/
def attachmentBlock (a : Attachment) : ContentBlock :=
  let mt := (a.mediaType).getD ""
  if jsStartsWith mt "image/" then
    ContentBlock.image (if mt.data.isEmpty then "image/png" else mt) a.data
  else
    ContentBlock.text ("[附件: " ++ ((jsStr a.fileName).getD "附件") ++ "]")

/-- Replacement text for an empty user message (lines 962-974): a synthesized
placeholder describing the attachment blocks, so no empty submission is sent. -/
def effectiveUserText (message : Option String) (attachmentBlocks : List ContentBlock) :
    String :=
  let given :=
    match jsStr message with
    | some m => if (jsTrim m).data.isEmpty then none else some m
    | none => none
  match given with
  | some m => m
  | none =>
    let imageCount := attachmentBlocks.countP (fun b =>
      match b with | ContentBlock.image _ _ => true | _ => false)
    let textCount := attachmentBlocks.countP (fun b =>
      match b with | ContentBlock.text _ => true | _ => false)
    if imageCount > 0 then "[已上传 " ++ toString imageCount ++ " 张图片]"
    else if textCount > 0 then "[已上传附件]"
    else "[空消息]"

/-- The SDK user message fed through the async channel (lines 980-988). -/
structure SdkUserMessage where
  sessionId : String
  content : List ContentBlock
  deriving DecidableEq

/-- Model of `sendMessageWithAttachments` (lines 903-1134), the attachments
send path: after credential resolution it loads attachments, builds the
content-block sequence, feeds it through a fresh `AsyncStream`, and always
dispatches the native streaming `query()` call; the race, streaming loop and
terminal records are the same as in `sendMessage`. -/
def sendMessageWithAttachments (settings : Option SettingsEnv) (penv : ProcessEnv)
    (env : SysEnv) (message : Option String)
    (resumeSessionId cwd permissionMode model : Option String)
    (stdinData : Option StdinPayload) (afs : AttachmentsEnv)
    (race : RaceOutcome) : SendOutcome :=
  match setupApiKey settings penv with
  | Except.error e => { dispatch := none, trace := [OutLine.terminal (TerminalRecord.failure e)] }
  | Except.ok _cfg =>
    let _workingDirectory := selectWorkingDirectory env cwd
    let attachments := loadAttachments stdinData afs
    let blocks := attachments.map attachmentBlock
    let userText := effectiveUserText message blocks
    let contentBlocks := blocks ++ [ContentBlock.text userText]
    let userMessage : SdkUserMessage := { sessionId := "", content := contentBlocks }
    let _inputStream := ((AsyncStream.init.enqueue userMessage).2).done
    let _sdkModelName := mapModelIdToSdkName model
    let _mode := permissionMode
    let resumeLines :=
      match jsStr resumeSessionId with
      | some sid => [OutLine.resuming sid]
      | none => []
    { dispatch := some DeliveryPath.nativeStreaming,
      trace := OutLine.messageStart :: (resumeLines ++ streamLoopLines resumeSessionId race) }

/-!
Transcript store (channel-manager.js lines 826-896).  The file tree under
`~/.claude/projects/` is modelled as a map from full session-file paths to
the list of entries appended so far; `randomUUID()` and
`new Date().toISOString()` are modelled as counted supplies threaded through
the store state.
-/

/-- The logical entry handed to `persistJsonlMessage`: a `type` tag and the
`message.content` block list. -/
structure TranscriptEntry where
  etype : String
  content : List ContentBlock
  deriving DecidableEq

/-- One line of a session file as written by `persistJsonlMessage`: the input
entry extended with the generated uuid, the owning session id and the
timestamp. -/
structure EnrichedEntry where
  etype : String
  content : List ContentBlock
  uuid : String
  sessionId : String
  timestamp : String
  deriving DecidableEq

/-- The transcript store state: home directory and current directory (used to
derive file paths), the file tree, and the uuid and clock supplies with their
counters. -/
structure TranscriptStore where
  home : String
  processCwd : String
  files : String → List EnrichedEntry
  uuidGen : Nat → String
  uuidCounter : Nat
  clock : Nat → String
  clockCounter : Nat

/-- Sanitization of the project path into a filesystem-safe token (lines 829
and 856): every non-alphanumeric character becomes a dash. -/
def sanitizeProjectKey (s : String) : String :=
  ⟨s.data.map (fun c => if c.isAlphanum then c else '-')⟩

/-- Full path of the session file for a (project path, session id) pair
(lines 828-832 and 855-857). -/
def sessionFilePath (home : String) (processCwd : String) (cwd : Option String)
    (sessionId : String) : String :=
  home ++ "/.claude/projects/" ++ sanitizeProjectKey ((jsStr cwd).getD processCwd)
    ++ "/" ++ sessionId ++ ".jsonl"

/-- Model of `persistJsonlMessage` (lines 826-847): the entry, enriched with a
fresh uuid, the session id and the current timestamp, is appended as one line
to the session file; no other line and no other file is touched. -/
def persistJsonlMessage (store : TranscriptStore) (sessionId : String)
    (cwd : Option String) (entry : TranscriptEntry) : TranscriptStore :=
  let path := sessionFilePath store.home store.processCwd cwd sessionId
  let enriched : EnrichedEntry :=
    { etype := entry.etype, content := entry.content,
      uuid := store.uuidGen store.uuidCounter,
      sessionId := sessionId,
      timestamp := store.clock store.clockCounter }
  { store with
    files := fun p => if p = path then store.files p ++ [enriched] else store.files p,
    uuidCounter := store.uuidCounter + 1,
    clockCounter := store.clockCounter + 1 }

/-!
Session history reconstruction (`loadSessionHistory`, lines 853-896).  The
raw bytes of the session file and the JSON parser are abstracted: the model
takes the file read outcome and a parse function for single lines.  A parsed
line is `ParsedLine.entry t c` where `t` is the `type` field and `c` is
`some` content exactly when the guard `msg.message && msg.message.content`
of the source is satisfied.
-/

/-- Outcome of `JSON.parse` on one line. -/
inductive ParsedLine (α : Type)
  | bad
  | entry (etype : String) (content : Option α)
  deriving DecidableEq

/-- One reconstructed history message, the role/content pair pushed by the
source loop. -/
structure HistoryMessage (α : Type) where
  role : String
  content : α
  deriving DecidableEq

/-- Outcome of locating and reading the session file: missing
(`fs.existsSync` false), a throwing read, or the file content. -/
inductive SessionFileRead
  | missing
  | readError
  | ok (content : String)
  deriving DecidableEq

/-- The role/content pair kept for one line, if any (lines 867-884): only
lines parsing to a user or assistant entry with truthy message content
survive, mapped to their role/content pair. -/
def keptMessage {α : Type} (parse : String → ParsedLine α) (line : String) :
    Option (HistoryMessage α) :=
  match parse line with
  | ParsedLine.entry "user" (some c) => some { role := "user", content := c }
  | ParsedLine.entry "assistant" (some c) => some { role := "assistant", content := c }
  | _ => none

/-- Model of `loadSessionHistory` (lines 853-896): a missing file or a
throwing read yields the empty list; otherwise the file is split into
non-blank lines, the kept role/content pairs are accumulated in file order,
and a trailing user-role message is popped. -/
def loadSessionHistory {α : Type} (parse : String → ParsedLine α)
    (file : SessionFileRead) : List (HistoryMessage α) :=
  match file with
  | SessionFileRead.missing => []
  | SessionFileRead.readError => []
  | SessionFileRead.ok content =>
    let lines := (jsSplitLines content).filter (fun l => !(jsTrim l).data.isEmpty)
    let messages := lines.foldl (fun acc line =>
      match keptMessage parse line with
      | some m => acc ++ [m]
      | none => acc) []
    match messages.getLast? with
    | some m => if m.role = "user" then messages.dropLast else messages
    | none => messages

/-- Store-level counterpart of `loadSessionHistory`, used by the fallback
path on the structured store: same filter, mapping and trailing-user pop,
applied to the enriched entries of the session file. -/
def loadSessionHistoryFromStore (store : TranscriptStore) (sessionId : String)
    (cwd : Option String) : List (HistoryMessage (List ContentBlock)) :=
  let entries := store.files (sessionFilePath store.home store.processCwd cwd sessionId)
  let messages := entries.foldl (fun acc e =>
    if e.etype = "user" ∨ e.etype = "assistant" then
      acc ++ [{ role := e.etype, content := e.content }]
    else acc) []
  match messages.getLast? with
  | some m => if m.role = "user" then messages.dropLast else messages
  | none => messages

/-!
Non-streaming fallback path (`sendMessageWithAnthropicSDK`, channel-manager.js
lines 531-725).  The single request/response of `client.messages.create` is an
input of the model: either the call rejected (network failure, handled by the
outer catch) or it resolved to a response value.
-/

/-- The `error` object of an error-shaped API response. -/
structure ApiErrorInfo where
  message : Option String
  etype : Option String
  deriving DecidableEq

/-- The fields of the API response consulted by the fallback path. -/
structure ApiResponse where
  error : Option ApiErrorInfo
  rtype : Option String
  message : Option String
  id : Option String
  model : Option String
  stopReason : Option String
  content : Option (List ContentBlock)
  inputTokens : Option Nat
  outputTokens : Option Nat
  deriving DecidableEq

/-- The error text displayed to the user on an error-shaped response (lines
608 and 613-616): the nested error message, else the top-level message, else
the fixed unknown-error text. -/
def fallbackErrorMsg (response : ApiResponse) : String :=
  (((response.error.bind (fun e => jsStr e.message)).orElse
      (fun _ => jsStr response.message)).getD "Unknown API error")

/-- The diagnostic text of the assistant-shaped error message (lines 613-616). -/
def fallbackErrorText (response : ApiResponse) : String :=
  "API 错误: " ++ fallbackErrorMsg response ++
    "\n\n可能的原因:\n1. API Key 配置不正确\n2. 第三方代理服务配置问题\n3. 请检查 ~/.claude/settings.json 中的配置"

/-- Concatenated text of the response blocks, the `result` field of the
success record (line 700). -/
def joinedText (blocks : List ContentBlock) : String :=
  String.join (blocks.map (fun b =>
    match b with
    | ContentBlock.text t => t
    | _ => ""))

/-- Model of `sendMessageWithAnthropicSDK` (lines 531-725): the non-streaming
fallback.  The session id is the truthy resume id or the freshly generated
`freshSessionId`; the current user message is persisted before the call;
prior history is loaded from the store when resuming (it shapes only the
outgoing request, which is not part of the emitted trace); an error-shaped
response (an `error` field, or `type` equal to "error") is converted into an
assistant-shaped message with stop reason "error", a result record with
`is_error` true, `[MESSAGE_END]` and the terminal failure line; a successful
response is relayed, persisted, and closed with the terminal success line; a
rejected call is caught and prints only the terminal failure line. -/
def sendMessageWithAnthropicSDK (env : SysEnv) (store : TranscriptStore)
    (message : String) (resumeSessionId cwd permissionMode model : Option String)
    (freshSessionId : String) (apiCall : Except String ApiResponse) :
    SendOutcome × TranscriptStore :=
  let workingDirectory := selectWorkingDirectory env cwd
  let sessionId := (jsStr resumeSessionId).getD freshSessionId
  let modelId := (jsStr model).getD "claude-sonnet-4-5"
  let userContent := [ContentBlock.text message]
  let store1 := persistJsonlMessage store sessionId cwd
    { etype := "user", content := userContent }
  let _messagesForApi : List (HistoryMessage (List ContentBlock)) :=
    match jsStr resumeSessionId with
    | some _ =>
      let history := loadSessionHistoryFromStore store1 sessionId cwd
      if history.length > 0 then
        history ++ [{ role := "user", content := userContent }]
      else [{ role := "user", content := userContent }]
    | none => [{ role := "user", content := userContent }]
  let header : List OutLine :=
    [OutLine.messageStart,
     OutLine.sessionIdLine sessionId,
     OutLine.message (EmittedRecord.systemInit workingDirectory sessionId modelId
       ((jsStr permissionMode).getD "default"))]
  match apiCall with
  | Except.error e =>
    ({ dispatch := some DeliveryPath.anthropicSdkFallback,
       trace := header ++ [OutLine.terminal (TerminalRecord.failure e)] }, store1)
  | Except.ok response =>
    if response.error.isSome || response.rtype == some "error" then
      let errorMsg := fallbackErrorMsg response
      let errorText := fallbackErrorText response
      ({ dispatch := some DeliveryPath.anthropicSdkFallback,
         trace := header ++
           [OutLine.message (EmittedRecord.assistantShaped "error"
              [ContentBlock.text errorText] sessionId),
            OutLine.content errorText,
            OutLine.message (EmittedRecord.resultShaped "error" true errorText sessionId),
            OutLine.messageEnd,
            OutLine.terminal (TerminalRecord.failure errorMsg)] }, store1)
    else
      let respContent := (response.content).getD []
      let stopReason := (jsStr response.stopReason).getD "end_turn"
      let store2 := persistJsonlMessage store1 sessionId cwd
        { etype := "assistant", content := respContent }
      ({ dispatch := some DeliveryPath.anthropicSdkFallback,
         trace := header ++
           [OutLine.message (EmittedRecord.assistantShaped stopReason respContent sessionId)]
           ++ (respContent.filterMap (fun b =>
                 match b with
                 | ContentBlock.text t => some (OutLine.content t)
                 | _ => none))
           ++ [OutLine.message (EmittedRecord.resultShaped "success" false
                 (joinedText respContent) sessionId),
               OutLine.messageEnd,
               OutLine.terminal (TerminalRecord.success (some sessionId))] }, store2)

/-!
Test fixtures shared by concrete witnesses and counterexamples.
-/

/-- Test fixture: a Unix-like ambient environment in which every path is
already absolute and every directory exists. -/
def sampleEnv : SysEnv :=
  { ideaProjectPath := none, projectPath := none, tmpdirEnvVar := none,
    osTmpdir := "/tmp", cwd := "/home/user/proj", home := "/home/user",
    resolvePath := fun s => s, isExistingDirectory := fun _ => true }

/-- Test fixture: a settings file carrying an API key and a custom base URL. -/
def sampleSettings : SettingsEnv :=
  { anthropicApiKey := some "sk-test", anthropicAuthToken := none,
    anthropicBaseUrl := some "https://api.88code.org" }

/-- Test fixture: an empty process environment. -/
def samplePenv : ProcessEnv := { anthropicApiKey := none, anthropicBaseUrl := none }

/-- The configuration that `setupApiKey` resolves from the sample fixtures. -/
def sampleCfg : ApiConfig :=
  { apiKey := "sk-test", baseUrl := some "https://api.88code.org",
    apiKeySource := "settings.json", baseUrlSource := "settings.json" }

/-- Test fixture: an attachments environment with no legacy file configured. -/
def sampleAttachmentsEnv : AttachmentsEnv :=
  { claudeAttachmentsFile := none, readAttachmentsFile := fun _ => EnvFileRead.readError }

/-- Test fixture: one legacy attachment record. -/
def legacyAttachment : Attachment :=
  { fileName := some "a.txt", mediaType := some "text/plain", data := "ZGF0YQ==" }

/-- Test fixture: an attachments environment whose legacy file parses to one
attachment. -/
def legacyAttachmentsEnv : AttachmentsEnv :=
  { claudeAttachmentsFile := some "/tmp/att.json",
    readAttachmentsFile := fun _ => EnvFileRead.parsedArray [legacyAttachment] }

/-- Test fixture: a transcript store over an empty file tree, with a counting
uuid supply and a constant clock. -/
def sampleStore : TranscriptStore :=
  { home := "/home/user", processCwd := "/home/user/proj",
    files := fun _ => [], uuidGen := fun n => ⟨List.replicate n 'u'⟩, uuidCounter := 0,
    clock := fun _ => "2026-01-01T00:00:00.000Z", clockCounter := 0 }

/-!
Claim theorems.
-/

/-- Helper: `mapModelIdToSdkName` on a present identifier is exactly the
substring cascade; the extra falsy-guard branch of the source agrees with the
cascade on the empty string. -/
theorem mapModelIdToSdkName_some_eq (s : String) :
    mapModelIdToSdkName (some s) =
      if jsContains (jsLower s) "opus" then "opus"
      else if jsContains (jsLower s) "haiku" then "haiku"
      else "sonnet" := by
  by_cases h : s.data.isEmpty
  · have hs : s = "" := by
      cases s with
      | mk data =>
        simp only [List.isEmpty_iff] at h
        simp [h]
    subst hs
    decide
  · simp [mapModelIdToSdkName, jsStr, h]

/-- C4: for every model identifier, the mapping yields "opus" when the
lowercased identifier contains "opus" (so "opus" wins when both substrings
occur), else "haiku" when it contains "haiku", else the default "sonnet";
a missing identifier also yields "sonnet". -/
theorem C4_mapModelIdToSdkName_spec : ∀ s : String,
    (jsContains (jsLower s) "opus" = true → mapModelIdToSdkName (some s) = "opus")
    ∧ (jsContains (jsLower s) "opus" = false → jsContains (jsLower s) "haiku" = true →
        mapModelIdToSdkName (some s) = "haiku")
    ∧ (jsContains (jsLower s) "opus" = false → jsContains (jsLower s) "haiku" = false →
        mapModelIdToSdkName (some s) = "sonnet")
    ∧ mapModelIdToSdkName none = "sonnet" := by
  intro s
  refine ⟨?_, ?_, ?_, rfl⟩
  · intro h; rw [mapModelIdToSdkName_some_eq]; simp [h]
  · intro h1 h2; rw [mapModelIdToSdkName_some_eq]; simp [h1, h2]
  · intro h1 h2; rw [mapModelIdToSdkName_some_eq]; simp [h1, h2]

/-- Witness for C4 at a concrete identifier containing both substrings: the
"opus" check wins. -/
theorem C4_mapModelIdToSdkName_spec_witness :
    jsContains (jsLower "Claude-OPUS-haiku-mix") "opus" = true
    ∧ mapModelIdToSdkName (some "Claude-OPUS-haiku-mix") = "opus" :=
  ⟨by decide, (C4_mapModelIdToSdkName_spec "Claude-OPUS-haiku-mix").1 (by decide)⟩

/-- C10: the sentinel literals "undefined" and "null" for the requested
working directory are never added to the candidate list, so resolution
proceeds exactly as with an absent path, from the environment project path,
the current directory and the home directory. -/
theorem C10_sentinel_cwd_ignored : ∀ env : SysEnv,
    workingDirCandidates env (some "undefined") = workingDirCandidates env none
    ∧ workingDirCandidates env (some "null") = workingDirCandidates env none
    ∧ selectWorkingDirectory env (some "undefined") = selectWorkingDirectory env none
    ∧ selectWorkingDirectory env (some "null") = selectWorkingDirectory env none
    ∧ workingDirCandidates env none =
        (match envProjectPath env with
         | some p => [p]
         | none => []) ++ [env.cwd, env.home] := by
  intro env
  exact ⟨rfl, rfl, rfl, rfl, rfl⟩

/-- C8: requesting the iterator of an unstarted channel succeeds and marks it
started, whatever its queue and finished state; requesting the iterator of a
started channel raises the usage error, again whatever its queue and finished
state. -/
theorem C8_asyncIterator_single_use :
    ∀ (α : Type) (queue : List α) (hasReader isDone : Bool),
    (AsyncStream.asyncIterator
        { queue := queue, hasReader := hasReader, isDone := isDone, started := false }
      = Except.ok { queue := queue, hasReader := hasReader, isDone := isDone, started := true })
    ∧ (∀ s : AsyncStream α, s.started = true →
        s.asyncIterator = Except.error "Stream can only be iterated once") := by
  intro α queue hasReader isDone
  constructor
  · simp [AsyncStream.asyncIterator]
  · intro s hs
    simp [AsyncStream.asyncIterator, hs]

/-- Witness for C8: a second iteration attempt on a concrete started channel
(non-empty queue, already finished) raises the usage error. -/
theorem C8_asyncIterator_single_use_witness :
    AsyncStream.asyncIterator
        { queue := [0], hasReader := false, isDone := true, started := true }
      = Except.error "Stream can only be iterated once" :=
  (C8_asyncIterator_single_use Nat [0] false true).2
    { queue := [0], hasReader := false, isDone := true, started := true } rfl

/-- Helper: the candidate scan returns the first candidate accepted by
`acceptCandidate`. -/
theorem selectWorkingDirectoryScan_eq (env : SysEnv) :
    ∀ l : List String,
      selectWorkingDirectoryScan env l = (l.filterMap (acceptCandidate env)).head? := by
  intro l
  induction l with
  | nil => rfl
  | cons c rest ih =>
    simp only [selectWorkingDirectoryScan, acceptCandidate, List.filterMap_cons]
    cases h : sanitizePath env c with
    | none => simpa [h] using ih
    | some n =>
      by_cases ht : (isTempDirectory env n && (envProjectPath env).isSome) = true
      · simpa [h, ht] using ih
      · by_cases he : env.isExistingDirectory n = true
        · simp [h, ht, he]
        · simpa [h, ht, he] using ih

/-- C5: the resolver returns the normalization of the first candidate that
sanitizes, is not skipped by the temp rule (normalized path inside a
recognized temp prefix while an environment project path is set), and is an
existing directory; when no candidate qualifies it returns the environment
project path or else the home directory, a fallback taken without any
existence test. -/
theorem C5_selectWorkingDirectory_spec :
    ∀ (env : SysEnv) (requestedCwd : Option String),
    selectWorkingDirectory env requestedCwd =
      (((workingDirCandidates env requestedCwd).filterMap (acceptCandidate env)).head?).getD
        ((envProjectPath env).getD env.home) := by
  intro env req
  unfold selectWorkingDirectory
  rw [selectWorkingDirectoryScan_eq]
  cases ((workingDirCandidates env req).filterMap (acceptCandidate env)).head? <;> rfl

/-- Helper: accumulating kept messages by appending equals `filterMap`. -/
theorem foldl_keptMessage_eq {α : Type} (parse : String → ParsedLine α) :
    ∀ (lines : List String) (acc : List (HistoryMessage α)),
      lines.foldl (fun acc line =>
        match keptMessage parse line with
        | some m => acc ++ [m]
        | none => acc) acc = acc ++ lines.filterMap (keptMessage parse) := by
  intro lines
  induction lines with
  | nil => intro acc; simp
  | cons l rest ih =>
    intro acc
    cases h : keptMessage parse l with
    | none => simp [List.foldl_cons, h, ih]
    | some m => simp [List.foldl_cons, h, ih]

/-- C2: a missing session file or a throwing read yields the empty history;
otherwise the history is exactly the role/content pairs of the parsable
user/assistant entries with truthy message content, in file order, with the
final entry removed exactly when its role is "user". -/
theorem C2_loadSessionHistory_spec :
    ∀ (α : Type) (parse : String → ParsedLine α) (content : String),
    loadSessionHistory parse SessionFileRead.missing = []
    ∧ loadSessionHistory parse SessionFileRead.readError = []
    ∧ (let kept := ((jsSplitLines content).filter
          (fun l => !(jsTrim l).data.isEmpty)).filterMap (keptMessage parse)
       loadSessionHistory parse (SessionFileRead.ok content) =
         if kept.getLast?.map (fun m => m.role) = some "user" then kept.dropLast else kept) := by
  intro α parse content
  refine ⟨rfl, rfl, ?_⟩
  show loadSessionHistory parse (SessionFileRead.ok content) = _
  simp only [loadSessionHistory]
  rw [foldl_keptMessage_eq]
  simp only [List.nil_append]
  cases h : (((jsSplitLines content).filter
      (fun l => !(jsTrim l).data.isEmpty)).filterMap (keptMessage parse)).getLast? with
  | none => simp [h]
  | some m =>
    by_cases hr : m.role = "user"
    · simp [h, hr]
    · simp [h, hr]

/-- C9: one append writes exactly the input entry extended with the next
generated identifier, the owning session id and the next timestamp; two
appends of the same logical entry add two lines that differ in identifier as
soon as the identifier supply is fresh, while their content fields coincide;
no prior line of any file is modified. -/
theorem C9_persist_enriches_and_appends :
    ∀ (store : TranscriptStore) (sessionId : String) (cwd : Option String)
      (entry : TranscriptEntry),
    let path := sessionFilePath store.home store.processCwd cwd sessionId
    let s1 := persistJsonlMessage store sessionId cwd entry
    let s2 := persistJsonlMessage s1 sessionId cwd entry
    let e1 : EnrichedEntry :=
      { etype := entry.etype, content := entry.content,
        uuid := store.uuidGen store.uuidCounter, sessionId := sessionId,
        timestamp := store.clock store.clockCounter }
    let e2 : EnrichedEntry :=
      { etype := entry.etype, content := entry.content,
        uuid := store.uuidGen (store.uuidCounter + 1), sessionId := sessionId,
        timestamp := store.clock (store.clockCounter + 1) }
    s1.files path = store.files path ++ [e1]
    ∧ s2.files path = store.files path ++ [e1, e2]
    ∧ (store.uuidGen store.uuidCounter ≠ store.uuidGen (store.uuidCounter + 1) →
        e1.uuid ≠ e2.uuid)
    ∧ e1.content = e2.content
    ∧ (∀ p, p ≠ path → s2.files p = store.files p)
    ∧ (s2.files path).take (store.files path).length = store.files path := by
  intro store sessionId cwd entry
  refine ⟨?_, ?_, fun h => h, rfl, ?_, ?_⟩
  · simp [persistJsonlMessage]
  · simp [persistJsonlMessage]
  · intro p hp
    simp [persistJsonlMessage, hp]
  · simp [persistJsonlMessage, List.take_left]

/-- Witness for C9: with the counting identifier supply of the sample store,
the two lines appended for the same logical entry carry distinct identifiers. -/
theorem C9_persist_enriches_and_appends_witness :
    ({ etype := "user", content := [], uuid := sampleStore.uuidGen sampleStore.uuidCounter,
       sessionId := "abc", timestamp := sampleStore.clock sampleStore.clockCounter }
        : EnrichedEntry).uuid ≠
    ({ etype := "user", content := [], uuid := sampleStore.uuidGen (sampleStore.uuidCounter + 1),
       sessionId := "abc", timestamp := sampleStore.clock (sampleStore.clockCounter + 1) }
        : EnrichedEntry).uuid :=
  (C9_persist_enriches_and_appends sampleStore "abc" none
    { etype := "user", content := [] }).2.2.1 (by decide)

/-- C1 (counterexample): with a configuration whose resolved base URL is
classified as custom, the plain-text send path still dispatches the native
streaming delivery path, not the non-streaming Anthropic-SDK fallback. -/
theorem C1_counterexample :
    isCustomBaseUrl (some "https://api.88code.org") = true
    ∧ (sendMessage (some sampleSettings) samplePenv sampleEnv (some "hello")
        none none none none (RaceOutcome.completed [])).dispatch
      = some DeliveryPath.nativeStreaming
    ∧ DeliveryPath.nativeStreaming ≠ DeliveryPath.anthropicSdkFallback :=
  ⟨by decide, rfl, by decide⟩

/-- C1 (amended): once credentials resolve, the plain-text send path always
dispatches the native streaming delivery path, whether or not the endpoint is
classified as custom; the non-streaming Anthropic-SDK fallback is a separate
function that this path never selects. -/
theorem C1_custom_url_still_native :
    ∀ (settings : Option SettingsEnv) (penv : ProcessEnv) (env : SysEnv)
      (message resumeSessionId cwd permissionMode model : Option String)
      (race : RaceOutcome) (cfg : ApiConfig),
    setupApiKey settings penv = Except.ok cfg →
    (sendMessage settings penv env message resumeSessionId cwd permissionMode
        model race).dispatch = some DeliveryPath.nativeStreaming := by
  intro settings penv env message resumeSessionId cwd permissionMode model race cfg h
  simp [sendMessage, h]

/-- Witness for the amended C1 at the custom-URL sample fixtures. -/
theorem C1_custom_url_still_native_witness :
    (sendMessage (some sampleSettings) samplePenv sampleEnv (some "hi")
        none none none none RaceOutcome.timedOut).dispatch
      = some DeliveryPath.nativeStreaming :=
  C1_custom_url_still_native (some sampleSettings) samplePenv sampleEnv (some "hi")
    none none none none RaceOutcome.timedOut sampleCfg rfl

/-- C3: when the timeout wins the race on either native streaming send path,
the trace ends with the terminal failure record carrying exactly the message
"Claude Code process aborted by user" and contains no session-id line; the
budget constant is 60 seconds. -/
theorem C3_timeout_terminal :
    ∀ (settings : Option SettingsEnv) (penv : ProcessEnv) (env : SysEnv)
      (message resumeSessionId cwd permissionMode model : Option String)
      (stdinData : Option StdinPayload) (afs : AttachmentsEnv) (cfg : ApiConfig),
    setupApiKey settings penv = Except.ok cfg →
    queryTimeoutMs = 60 * 1000
    ∧ (let t := (sendMessage settings penv env message resumeSessionId cwd permissionMode
          model RaceOutcome.timedOut).trace
       t.getLast? = some (OutLine.terminal
          (TerminalRecord.failure "Claude Code process aborted by user"))
       ∧ ∀ id, OutLine.sessionIdLine id ∉ t)
    ∧ (let t := (sendMessageWithAttachments settings penv env message resumeSessionId cwd
          permissionMode model stdinData afs RaceOutcome.timedOut).trace
       t.getLast? = some (OutLine.terminal
          (TerminalRecord.failure "Claude Code process aborted by user"))
       ∧ ∀ id, OutLine.sessionIdLine id ∉ t) := by
  intro settings penv env message resumeSessionId cwd permissionMode model stdinData afs cfg h
  refine ⟨rfl, ?_, ?_⟩
  · cases hr : jsStr resumeSessionId with
    | none =>
      constructor
      · simp [sendMessage, h, hr, streamLoopLines]
      · intro id
        simp [sendMessage, h, hr, streamLoopLines]
    | some sid =>
      constructor
      · simp [sendMessage, h, hr, streamLoopLines]
      · intro id
        simp [sendMessage, h, hr, streamLoopLines]
  · cases hr : jsStr resumeSessionId with
    | none =>
      constructor
      · simp [sendMessageWithAttachments, h, hr, streamLoopLines]
      · intro id
        simp [sendMessageWithAttachments, h, hr, streamLoopLines]
    | some sid =>
      constructor
      · simp [sendMessageWithAttachments, h, hr, streamLoopLines]
      · intro id
        simp [sendMessageWithAttachments, h, hr, streamLoopLines]

/-- Witness for C3: the concrete plain-text invocation on the sample fixtures
that loses the race prints the timeout failure as its final line. -/
theorem C3_timeout_terminal_witness :
    ((sendMessage (some sampleSettings) samplePenv sampleEnv (some "hi") none none none none
        RaceOutcome.timedOut).trace).getLast?
      = some (OutLine.terminal
          (TerminalRecord.failure "Claude Code process aborted by user")) :=
  ((C3_timeout_terminal (some sampleSettings) samplePenv sampleEnv (some "hi") none none none
      none none sampleAttachmentsEnv sampleCfg rfl).2.1).1

/-- C6: whenever the fallback response carries an error field or has type
"error", the trace ends with the assistant-shaped message whose stop reason
is "error" and whose content is the diagnostic text, the result record with
`is_error` true, the `[MESSAGE_END]` marker, and the terminal failure record;
the error is reported through these lines, not rethrown. -/
theorem C6_fallback_error_shape :
    ∀ (env : SysEnv) (store : TranscriptStore) (message : String)
      (resumeSessionId cwd permissionMode model : Option String)
      (freshSessionId : String) (response : ApiResponse),
    (response.error.isSome = true ∨ response.rtype = some "error") →
    (let sessionId := (jsStr resumeSessionId).getD freshSessionId
     let errorMsg := fallbackErrorMsg response
     let errorText := fallbackErrorText response
     ∃ pre : List OutLine,
       (sendMessageWithAnthropicSDK env store message resumeSessionId cwd permissionMode
          model freshSessionId (Except.ok response)).1.trace =
        pre ++
          [OutLine.message (EmittedRecord.assistantShaped "error"
             [ContentBlock.text errorText] sessionId),
           OutLine.content errorText,
           OutLine.message (EmittedRecord.resultShaped "error" true errorText sessionId),
           OutLine.messageEnd,
           OutLine.terminal (TerminalRecord.failure errorMsg)]) := by
  intro env store message resumeSessionId cwd permissionMode model freshSessionId response h
  have hb : (response.error.isSome || response.rtype == some "error") = true := by
    rcases h with h | h
    · simp [h]
    · simp [h]
  refine ⟨[OutLine.messageStart,
    OutLine.sessionIdLine ((jsStr resumeSessionId).getD freshSessionId),
    OutLine.message (EmittedRecord.systemInit (selectWorkingDirectory env cwd)
      ((jsStr resumeSessionId).getD freshSessionId) ((jsStr model).getD "claude-sonnet-4-5")
      ((jsStr permissionMode).getD "default"))], ?_⟩
  simp [sendMessageWithAnthropicSDK, hb]

/-- Test fixture: an error-shaped API response. -/
def errorResponse : ApiResponse :=
  { error := some { message := some "invalid api key", etype := some "authentication_error" },
    rtype := none, message := none, id := none, model := none, stopReason := none,
    content := none, inputTokens := none, outputTokens := none }

/-- Witness for C6 at a concrete error-shaped response. -/
theorem C6_fallback_error_shape_witness :
    errorResponse.error.isSome = true
    ∧ (∃ pre : List OutLine,
        (sendMessageWithAnthropicSDK sampleEnv sampleStore "hello" none none none none
           "fresh-session" (Except.ok errorResponse)).1.trace =
         pre ++
           [OutLine.message (EmittedRecord.assistantShaped "error"
              [ContentBlock.text (fallbackErrorText errorResponse)] "fresh-session"),
            OutLine.content (fallbackErrorText errorResponse),
            OutLine.message (EmittedRecord.resultShaped "error" true
              (fallbackErrorText errorResponse) "fresh-session"),
            OutLine.messageEnd,
            OutLine.terminal (TerminalRecord.failure (fallbackErrorMsg errorResponse))]) :=
  ⟨rfl, C6_fallback_error_shape sampleEnv sampleStore "hello" none none none none
    "fresh-session" errorResponse (Or.inl rfl)⟩

/-- C7 (counterexample): an empty bare array delivered over the side channel
is returned directly even though the legacy file holds an attachment, so an
empty direct sequence does not fall back to the legacy file. -/
theorem C7_counterexample :
    loadAttachments (some (StdinPayload.arr [])) legacyAttachmentsEnv = []
    ∧ loadAttachmentsFromEnv legacyAttachmentsEnv = [legacyAttachment]
    ∧ ([] : List Attachment) ≠ [legacyAttachment] :=
  ⟨rfl, rfl, by decide⟩

/-- C7 (amended): a payload that is a bare array, or whose attachments field
is an array, is returned directly, also when that array is empty; every other
payload falls back to the legacy file; a missing path, a throwing read or
parse, and a non-array parse all degrade the legacy fallback to the empty
sequence. -/
theorem C7_loadAttachments_spec :
    ∀ (stdinData : Option StdinPayload) (env : AttachmentsEnv),
    (∀ xs, stdinData = some (StdinPayload.arr xs) → loadAttachments stdinData env = xs)
    ∧ (∀ xs, stdinData = some (StdinPayload.wrapped (some xs)) →
        loadAttachments stdinData env = xs)
    ∧ ((∀ xs, stdinData ≠ some (StdinPayload.arr xs)
          ∧ stdinData ≠ some (StdinPayload.wrapped (some xs))) →
        loadAttachments stdinData env = loadAttachmentsFromEnv env)
    ∧ (jsStr env.claudeAttachmentsFile = none → loadAttachmentsFromEnv env = [])
    ∧ (∀ p, jsStr env.claudeAttachmentsFile = some p →
        env.readAttachmentsFile p = EnvFileRead.readError → loadAttachmentsFromEnv env = [])
    ∧ (∀ p, jsStr env.claudeAttachmentsFile = some p →
        env.readAttachmentsFile p = EnvFileRead.parsedOther →
        loadAttachmentsFromEnv env = []) := by
  intro stdinData env
  refine ⟨?_, ?_, ?_, ?_, ?_, ?_⟩
  · intro xs hx; subst hx; rfl
  · intro xs hx; subst hx; rfl
  · intro hne
    match stdinData with
    | none => rfl
    | some (StdinPayload.arr xs) => exact absurd rfl (hne xs).1
    | some (StdinPayload.wrapped (some xs)) => exact absurd rfl (hne xs).2
    | some (StdinPayload.wrapped none) => rfl
    | some (StdinPayload.scalar b) => rfl
  · intro h; simp [loadAttachmentsFromEnv, h]
  · intro p hp hr; simp [loadAttachmentsFromEnv, hp, hr]
  · intro p hp hr; simp [loadAttachmentsFromEnv, hp, hr]

/-- Witness for the amended C7: a present non-empty bare array is returned
directly. -/
theorem C7_loadAttachments_spec_witness :
    loadAttachments (some (StdinPayload.arr [legacyAttachment])) sampleAttachmentsEnv
      = [legacyAttachment] :=
  (C7_loadAttachments_spec (some (StdinPayload.arr [legacyAttachment]))
    sampleAttachmentsEnv).1 [legacyAttachment] rfl

end ChannelManager
